import Mathlib

/-!
Verification development for the `modifarchivo` repository.

The repository contains two pipelines:
* a reconciliation pipeline (`32_r5.py` class `SwapProcessor`, and the
  near-duplicate `2s_r5.py`) that joins a "flows" table against an
  "estimates" table on the key (contract code, date) and overwrites four
  numeric fields of the flows table according to the sign of the estimate
  values, optionally aggregating the result into a report table;
* a normalization pipeline (`valida_caracteres_Esp/utils.py`,
  `quitaespeciales.py`) that substitutes accented characters and applies
  two literal substring replacements.

The embedding below translates those functions.  Numeric cell values
(Python floats read by pandas) are modelled as `Option ℚ` where `none`
stands for a missing value (NaN); calendar dates after the
`pd.to_datetime(..., errors='coerce')` conversion are modelled as
`Option Nat` (an encoded date, `none` standing for NaT).
-/

/-- A row of the `flujos_swap_gbo_*.csv` table, after the date column has
been converted to datetime (`pd.to_datetime(..., errors='coerce')`).
The four numeric fields are `Option ℚ`, `none` representing NaN. -/
structure FlowRow where
  cod_emp : String
  fecha_cobro : Option Nat
  der_intereses : Option ℚ
  obl_intereses : Option ℚ
  der_vp : Option ℚ
  obl_vp : Option ℚ
deriving DecidableEq, Repr

/-- A row of the `COL_ESTIM_FLOWS_*.dat` table after its `M_DATE` column has
been converted to datetime.  `M_DISCFLOW` / `M_FLOW_COL` are `Option ℚ`:
`none` stands for NaN (in `32_r5.py`, where `pd.notna` guards each field) or
for a string on which `float(...)` raises `ValueError` (in `2s_r5.py`). -/
structure EstRow where
  M_CONTRACT_ : String
  M_DATE : Option Nat
  M_DISCFLOW : Option ℚ
  M_FLOW_COL : Option ℚ
deriving DecidableEq, Repr

/-- Pandas equality on converted date cells: `NaT == x` is `False` for every
`x`, including NaT itself; two concrete dates compare by value. -/
def dtEq : Option Nat → Option Nat → Bool
  | some a, some b => a == b
  | _, _ => false

/-- The join condition of the reconciliation loop:
`(df['cod_emp'] == row['M_CONTRACT_']) & (df['fecha_cobro'] == row['M_DATE'])`. -/
def matchKey (e : EstRow) (f : FlowRow) : Bool :=
  f.cod_emp == e.M_CONTRACT_ && dtEq f.fecha_cobro e.M_DATE

/-- The inner body of `SwapProcessor.procesar_flujos_swap` applied to one
matching flow row: for each of `M_DISCFLOW` / `M_FLOW_COL`, if the value is
present (`pd.notna`) and `> 0` the corresponding receivable field is set,
`elif < 0` the payable field is set to the absolute value, otherwise the
fields are untouched. -/
def aplicarEstimacion (e : EstRow) (f : FlowRow) : FlowRow :=
  let f1 :=
    match e.M_DISCFLOW with
    | some d =>
      if 0 < d then { f with der_intereses := some d }
      else if d < 0 then { f with obl_intereses := some |d| }
      else f
    | none => f
  match e.M_FLOW_COL with
  | some c =>
    if 0 < c then { f1 with der_vp := some c }
    else if c < 0 then { f1 with obl_vp := some |c| }
    else f1
  | none => f1

/-- One iteration of the estimate loop of `procesar_flujos_swap`
(`32_r5.py` lines 226-251): find the flow rows matching the estimate's key;
if there is at least one, update each of them with `aplicarEstimacion` and
add the number of matching rows to the `modificaciones` counter. -/
def pasoSwapCount (st : List FlowRow × Nat) (e : EstRow) : List FlowRow × Nat :=
  let n := st.1.countP (fun f => matchKey e f)
  if 0 < n then
    (st.1.map (fun f => if matchKey e f then aplicarEstimacion e f else f), st.2 + n)
  else st

/-- `SwapProcessor.procesar_flujos_swap`: fold the estimate rows over the
flows table, returning the updated table together with the logged
`modificaciones` counter. -/
def procesarFlujosSwapCount (flows : List FlowRow) (ests : List EstRow) :
    List FlowRow × Nat :=
  ests.foldl pasoSwapCount (flows, 0)

/-- `fillna(0).astype(float)` applied to the four numeric columns, as done
by `procesar` in `2s_r5.py` before its estimate loop. -/
def fillnaFlow (f : FlowRow) : FlowRow :=
  { f with
    der_intereses := some (f.der_intereses.getD 0)
    obl_intereses := some (f.obl_intereses.getD 0)
    der_vp := some (f.der_vp.getD 0)
    obl_vp := some (f.obl_vp.getD 0) }

/-- The sign-rule update of `procesar` in `2s_r5.py` (lines 57-65), applied
to one matching flow row once both values parsed. -/
def aplicar2s (d c : ℚ) (f : FlowRow) : FlowRow :=
  let f1 :=
    if 0 < d then { f with der_intereses := some d }
    else if d < 0 then { f with obl_intereses := some |d| }
    else f
  if 0 < c then { f1 with der_vp := some c }
  else if c < 0 then { f1 with obl_vp := some |c| }
  else f1

/-- One iteration of the estimate loop of `procesar` in `2s_r5.py`
(lines 44-65): if the mask matches any flow row, parse both flow values
(`float(...)`); on a parse failure log a warning (the `Nat` component
counts the warnings) and `continue`; otherwise update every matching row. -/
def paso2sLog (st : List FlowRow × Nat) (e : EstRow) : List FlowRow × Nat :=
  if st.1.any (fun f => matchKey e f) then
    match e.M_DISCFLOW, e.M_FLOW_COL with
    | some d, some c =>
      (st.1.map (fun f => if matchKey e f then aplicar2s d c f else f), st.2)
    | _, _ => (st.1, st.2 + 1)
  else st

/-- `procesar` from `2s_r5.py` (lines 35-68): fill the four numeric columns
with 0 for missing values, then fold the estimate rows; returns the updated
flows together with the number of warnings logged for non-numeric rows. -/
def procesar2sLog (flows : List FlowRow) (ests : List EstRow) :
    List FlowRow × Nat :=
  ests.foldl paso2sLog (flows.map fillnaFlow, 0)

/-- The key fields of a flow row: contract code and collection date. -/
def claves (f : FlowRow) : String × Option Nat :=
  (f.cod_emp, f.fecha_cobro)

/-- A row of the `Informe_R5_GBO_*.csv` table. -/
structure ReportRow where
  codigo_operacion : String
  cupon : Option ℚ
  cupon_1 : Option ℚ
deriving DecidableEq, Repr

/-- `SwapProcessor.procesar_informe_r5` (`32_r5.py` lines 282-298): for each
report row, collect the flow rows whose `cod_emp` equals
`codigo_operacion`; if there is at least one, set `cupon` to the sum of
`der_vp` (`fillna(0).sum()`) divided by 1000000 and `cupon_1` likewise from
`obl_vp`; otherwise leave the row untouched. -/
def procesarInformeR5 (informe : List ReportRow) (flujos : List FlowRow) :
    List ReportRow :=
  informe.map fun r =>
    let coincidentes := flujos.filter (fun f => f.cod_emp == r.codigo_operacion)
    if 0 < coincidentes.length then
      { r with
        cupon := some ((coincidentes.foldl (fun acc f => acc + f.der_vp.getD 0) 0) / 1000000)
        cupon_1 := some ((coincidentes.foldl (fun acc f => acc + f.obl_vp.getD 0) 0) / 1000000) }
    else r

/-! ### Raw estimates and the in-place date conversion (`32_r5.py` line 224,
`2s_r5.py` `convertir_fechas`).

`procesar_flujos_swap` receives the estimates DataFrame by reference and
reassigns its `M_DATE` column with `pd.to_datetime(..., format='%d/%m/%Y',
errors='coerce')` without making a copy, so the caller's estimates table is
mutated.  We model the pre-state cell as either the raw string or an
already-converted datetime. -/

/-- A pandas cell of the `M_DATE` column: either the raw string read from
the file or a converted datetime value (`none` = NaT). -/
inductive Cell where
  | str : String → Cell
  | dt : Option Nat → Cell
deriving DecidableEq, Repr

/-- Numeric value of a decimal digit, `none` for a non-digit. -/
def digitVal (c : Char) : Option Nat :=
  if c.isDigit then some (c.toNat - 48) else none

/-- Models `pd.to_datetime(s, format='%d/%m/%Y', errors='coerce')` on one
string cell: a `DD/MM/YYYY` string becomes the encoded date
`year*10000 + month*100 + day`; anything unparseable becomes `none` (NaT). -/
def parseDDMMYYYY (s : String) : Option Nat :=
  match s.toList with
  | [d1, d2, sep1, m1, m2, sep2, y1, y2, y3, y4] =>
    if sep1 = '/' ∧ sep2 = '/' then do
      let a ← digitVal d1
      let b ← digitVal d2
      let c ← digitVal m1
      let d ← digitVal m2
      let e ← digitVal y1
      let f ← digitVal y2
      let g ← digitVal y3
      let h ← digitVal y4
      let day := 10 * a + b
      let mon := 10 * c + d
      let yr := 1000 * e + 100 * f + 10 * g + h
      if 1 ≤ day ∧ day ≤ 31 ∧ 1 ≤ mon ∧ mon ≤ 12 then
        some (yr * 10000 + mon * 100 + day)
      else none
    else none
  | _ => none

/-- Date conversion of one `M_DATE` cell (an already converted cell is kept). -/
def cellToDate : Cell → Option Nat
  | Cell.str s => parseDDMMYYYY s
  | Cell.dt d => d

/-- An estimate row as loaded from the file, before the date conversion. -/
structure EstRowRaw where
  M_CONTRACT_ : String
  M_DATE : Cell
  M_DISCFLOW : Option ℚ
  M_FLOW_COL : Option ℚ
deriving DecidableEq, Repr

/-- The in-place conversion of the `M_DATE` column performed on the
caller's estimates table. -/
def convertirMDate (e : EstRowRaw) : EstRowRaw :=
  { e with M_DATE := Cell.dt (cellToDate e.M_DATE) }

/-- View of a converted raw estimate row as the `EstRow` the loop reads. -/
def toEstRow (e : EstRowRaw) : EstRow :=
  ⟨e.M_CONTRACT_, cellToDate e.M_DATE, e.M_DISCFLOW, e.M_FLOW_COL⟩

/-- `procesar_flujos_swap` with its full effect made explicit: the returned
flows table (with the modification counter) together with the post-state of
the caller's estimates table, whose `M_DATE` column has been converted in
place. -/
def procesarFlujosSwapEstado (flows : List FlowRow) (ests : List EstRowRaw) :
    (List FlowRow × Nat) × List EstRowRaw :=
  let ests2 := ests.map convertirMDate
  (procesarFlujosSwapCount flows (ests2.map toEstRow), ests2)

/-! ### The text normalizer (`valida_caracteres_Esp/utils.py`,
`limpiar_texto`). -/

/-- The source side of the `str.maketrans` table. -/
def tablaOrigen : List Char := "áéíóúÁÉÍÓÚñÑ".toList

/-- The target side of the `str.maketrans` table. -/
def tablaDestino : List Char := "aeiouAEIOUnN".toList

/-- The character translation table built by
`str.maketrans("áéíóúÁÉÍÓÚñÑ", "aeiouAEIOUnN")`. -/
def tablaZip : List (Char × Char) := tablaOrigen.zip tablaDestino

/-- `str.translate` applied to one character: mapped through the table if
present, unchanged otherwise. -/
def traducir (c : Char) : Char :=
  match tablaZip.find? (fun p => p.1 == c) with
  | some p => p.2
  | none => c

/-- Python `str.replace` (all occurrences, scanning left to right,
non-overlapping), pattern `p :: pat`, replacement `rep`.  The `skip`
counter consumes the remainder of a match that was just replaced. -/
def pyReplaceAux (p : Char) (pat rep : List Char) : List Char → Nat → List Char
  | [], _ => []
  | _ :: rest, k + 1 => pyReplaceAux p pat rep rest k
  | c :: rest, 0 =>
    if (p :: pat).isPrefixOf (c :: rest) then
      rep ++ pyReplaceAux p pat rep rest pat.length
    else
      c :: pyReplaceAux p pat rep rest 0

/-- Python `text.replace(pattern, rep)` with the non-empty pattern
`p :: pat`. -/
def pyReplace (p : Char) (pat rep : List Char) (l : List Char) : List Char :=
  pyReplaceAux p pat rep l 0

/-- Whether `pat` occurs as a contiguous substring (Python `pat in text`). -/
def contiene (pat : List Char) : List Char → Bool
  | [] => pat.isEmpty
  | c :: rest => pat.isPrefixOf (c :: rest) || contiene pat rest

/-- `limpiar_texto` from `valida_caracteres_Esp/utils.py`: translate each
character through the table, then replace every occurrence of `";033;"`
with `";33;"` and afterwards every occurrence of `";011001;"` with
`";11001;"`. -/
def limpiar_texto (texto : List Char) : List Char :=
  pyReplace ';' "011001;".toList ";11001;".toList
    (pyReplace ';' "033;".toList ";33;".toList (texto.map traducir))

/-! ### Helper lemmas about the reconciliation loop -/

/-- `aplicarEstimacion` only writes the four numeric fields: the key fields
are untouched. -/
lemma claves_aplicarEstimacion (e : EstRow) (f : FlowRow) :
    claves (aplicarEstimacion e f) = claves f := by
  obtain ⟨ce, fc, di, oi, dv, ov⟩ := f
  unfold aplicarEstimacion
  cases e.M_DISCFLOW <;> cases e.M_FLOW_COL <;> dsimp only <;> split_ifs <;> rfl

/-- `aplicar2s` only writes the four numeric fields. -/
lemma claves_aplicar2s (d c : ℚ) (f : FlowRow) :
    claves (aplicar2s d c f) = claves f := by
  obtain ⟨ce, fc, di, oi, dv, ov⟩ := f
  unfold aplicar2s
  dsimp only
  split_ifs <;> rfl

/-- `fillnaFlow` only writes the four numeric fields. -/
lemma claves_fillnaFlow (f : FlowRow) : claves (fillnaFlow f) = claves f := rfl

/-- The join condition only reads the key fields, which `fillnaFlow` keeps. -/
lemma matchKey_fillnaFlow (e : EstRow) (f : FlowRow) :
    matchKey e (fillnaFlow f) = matchKey e f := rfl

/-- One step of the `procesar_flujos_swap` loop preserves the key fields of
every row, in order. -/
lemma map_claves_pasoSwapCount (st : List FlowRow × Nat) (e : EstRow) :
    ((pasoSwapCount st e).1).map claves = st.1.map claves := by
  unfold pasoSwapCount
  dsimp only
  split
  · rw [List.map_map]
    apply List.map_congr_left
    intro f _
    by_cases h : matchKey e f
    · simp only [Function.comp_apply, if_pos h, claves_aplicarEstimacion]
    · simp only [Function.comp_apply, if_neg h]
  · rfl

/-- The whole `procesar_flujos_swap` loop preserves the key fields of every
row, in order. -/
lemma map_claves_foldlSwap (ests : List EstRow) :
    ∀ st : List FlowRow × Nat,
      ((ests.foldl pasoSwapCount st).1).map claves = st.1.map claves := by
  induction ests with
  | nil => intro st; rfl
  | cons e ests ih =>
    intro st
    rw [List.foldl_cons, ih, map_claves_pasoSwapCount]

/-- One step of the `procesar` loop of `2s_r5.py` preserves the key fields
of every row, in order. -/
lemma map_claves_paso2sLog (st : List FlowRow × Nat) (e : EstRow) :
    ((paso2sLog st e).1).map claves = st.1.map claves := by
  unfold paso2sLog
  split
  · cases e.M_DISCFLOW <;> cases e.M_FLOW_COL <;> dsimp only
    case some.some d c =>
      rw [List.map_map]
      apply List.map_congr_left
      intro f _
      by_cases h : matchKey e f
      · simp only [Function.comp_apply, if_pos h, claves_aplicar2s]
      · simp only [Function.comp_apply, if_neg h]
  · rfl

/-- The whole `procesar` loop of `2s_r5.py` preserves the key fields of
every row, in order. -/
lemma map_claves_foldl2s (ests : List EstRow) :
    ∀ st : List FlowRow × Nat,
      ((ests.foldl paso2sLog st).1).map claves = st.1.map claves := by
  induction ests with
  | nil => intro st; rfl
  | cons e ests ih =>
    intro st
    rw [List.foldl_cons, ih, map_claves_paso2sLog]

/-- A flow row matched by none of the estimate rows is returned verbatim by
the `procesar_flujos_swap` loop. -/
lemma getElem?_foldlSwap (ests : List EstRow) :
    ∀ (st : List FlowRow × Nat) (i : Nat) (f : FlowRow),
      st.1[i]? = some f → (∀ e ∈ ests, matchKey e f = false) →
      ((ests.foldl pasoSwapCount st).1)[i]? = some f := by
  induction ests with
  | nil => intro st i f hf _; exact hf
  | cons e ests ih =>
    intro st i f hf hnm
    rw [List.foldl_cons]
    refine ih _ i f ?_ (fun e' he' => hnm e' (List.mem_cons_of_mem _ he'))
    have he : matchKey e f = false := hnm e (List.mem_cons_self _ _)
    unfold pasoSwapCount
    dsimp only
    split
    · rw [List.getElem?_map, hf]
      simp only [Option.map_some', he, Bool.false_eq_true, if_false]
    · exact hf

/-- A flow row matched by none of the estimate rows is returned verbatim by
the `procesar` loop of `2s_r5.py`. -/
lemma getElem?_foldl2s (ests : List EstRow) :
    ∀ (st : List FlowRow × Nat) (i : Nat) (f : FlowRow),
      st.1[i]? = some f → (∀ e ∈ ests, matchKey e f = false) →
      ((ests.foldl paso2sLog st).1)[i]? = some f := by
  induction ests with
  | nil => intro st i f hf _; exact hf
  | cons e ests ih =>
    intro st i f hf hnm
    rw [List.foldl_cons]
    refine ih _ i f ?_ (fun e' he' => hnm e' (List.mem_cons_of_mem _ he'))
    have he : matchKey e f = false := hnm e (List.mem_cons_self _ _)
    unfold paso2sLog
    split
    · cases e.M_DISCFLOW <;> cases e.M_FLOW_COL <;> dsimp only
      case some.some d c =>
        rw [List.getElem?_map, hf]
        simp only [Option.map_some', he, Bool.false_eq_true, if_false]
      all_goals exact hf
    · exact hf

/-- C3: reconciliation returns a flows collection with the same number of
rows in the same order; the key fields (contract code, collection date) of
every row are unchanged, so only the four numeric fields may differ.  This
holds both for `SwapProcessor.procesar_flujos_swap` and for `procesar` of
`2s_r5.py`. -/
theorem c3_shape_and_keys_preserved (flows : List FlowRow) (ests : List EstRow) :
    (((procesarFlujosSwapCount flows ests).1).length = flows.length ∧
      ((procesarFlujosSwapCount flows ests).1).map claves = flows.map claves) ∧
    (((procesar2sLog flows ests).1).length = flows.length ∧
      ((procesar2sLog flows ests).1).map claves = flows.map claves) := by
  have h32 : ((procesarFlujosSwapCount flows ests).1).map claves = flows.map claves :=
    map_claves_foldlSwap ests (flows, 0)
  have hfill : (flows.map fillnaFlow).map claves = flows.map claves := by
    rw [List.map_map]
    exact List.map_congr_left (fun f _ => claves_fillnaFlow f)
  have h2s : ((procesar2sLog flows ests).1).map claves = flows.map claves := by
    unfold procesar2sLog
    rw [map_claves_foldl2s ests (flows.map fillnaFlow, 0)]
    exact hfill
  refine ⟨⟨?_, h32⟩, ⟨?_, h2s⟩⟩
  · have := congrArg List.length h32
    simpa using this
  · have := congrArg List.length h2s
    simpa using this

/-- C2: a flow row whose key matches no estimate row is returned with all
its fields (in particular the four numeric fields) unchanged, both by the
`procesar_flujos_swap` loop and by the estimate loop of `procesar`
(`2s_r5.py` lines 44-65, which runs after the `fillna(0)` column
conversion and is here quantified over its entry state). -/
theorem c2_unmatched_rows_preserved (ests : List EstRow) (f : FlowRow)
    (hnm : ∀ e ∈ ests, matchKey e f = false) :
    (∀ (flows : List FlowRow) (i : Nat), flows[i]? = some f →
      ((procesarFlujosSwapCount flows ests).1)[i]? = some f) ∧
    (∀ (fs : List FlowRow) (w : Nat) (i : Nat), fs[i]? = some f →
      ((ests.foldl paso2sLog (fs, w)).1)[i]? = some f) := by
  constructor
  · intro flows i hf
    exact getElem?_foldlSwap ests (flows, 0) i f hf hnm
  · intro fs w i hf
    exact getElem?_foldl2s ests (fs, w) i f hf hnm

/-- Witness for C2 at a concrete input: the third row of the end-to-end
scenario of the spec (contract ZZZ999 matches no estimate). -/
theorem c2_witness :
    ((procesarFlujosSwapCount
        [⟨"ABC123", some 20250603, some 0, some 0, some 0, some 0⟩,
         ⟨"ZZZ999", some 20250603, some 0, some 0, some 0, some 0⟩]
        [⟨"ABC123", some 20250603, some 1000, some (-1500)⟩]).1)[1]? =
      some ⟨"ZZZ999", some 20250603, some 0, some 0, some 0, some 0⟩ :=
  (c2_unmatched_rows_preserved _ _ (by decide)).1 _ 1 (by decide)

/-- The three-way sign rule satisfied by the per-row update of
`procesar_flujos_swap`, independently for `M_DISCFLOW` (interest fields)
and `M_FLOW_COL` (present-value fields). -/
lemma aplicarEstimacion_spec (e : EstRow) (f : FlowRow) :
    ((∀ d : ℚ, e.M_DISCFLOW = some d →
        (0 < d → (aplicarEstimacion e f).der_intereses = some d ∧
          (aplicarEstimacion e f).obl_intereses = f.obl_intereses) ∧
        (d < 0 → (aplicarEstimacion e f).obl_intereses = some |d| ∧
          (aplicarEstimacion e f).der_intereses = f.der_intereses) ∧
        (d = 0 → (aplicarEstimacion e f).der_intereses = f.der_intereses ∧
          (aplicarEstimacion e f).obl_intereses = f.obl_intereses)) ∧
      (e.M_DISCFLOW = none → (aplicarEstimacion e f).der_intereses = f.der_intereses ∧
        (aplicarEstimacion e f).obl_intereses = f.obl_intereses)) ∧
    ((∀ c : ℚ, e.M_FLOW_COL = some c →
        (0 < c → (aplicarEstimacion e f).der_vp = some c ∧
          (aplicarEstimacion e f).obl_vp = f.obl_vp) ∧
        (c < 0 → (aplicarEstimacion e f).obl_vp = some |c| ∧
          (aplicarEstimacion e f).der_vp = f.der_vp) ∧
        (c = 0 → (aplicarEstimacion e f).der_vp = f.der_vp ∧
          (aplicarEstimacion e f).obl_vp = f.obl_vp)) ∧
      (e.M_FLOW_COL = none → (aplicarEstimacion e f).der_vp = f.der_vp ∧
        (aplicarEstimacion e f).obl_vp = f.obl_vp)) := by
  obtain ⟨ce, fc, di, oi, dv, ov⟩ := f
  unfold aplicarEstimacion
  rcases hD : e.M_DISCFLOW with _ | d0 <;> rcases hC : e.M_FLOW_COL with _ | c0 <;>
    simp only [hD, hC]
  · -- M_DISCFLOW = none, M_FLOW_COL = none
    refine ⟨⟨?_, ?_⟩, ⟨?_, ?_⟩⟩
    · intro d hd; exact absurd hd (by simp)
    · intro _; exact ⟨trivial, trivial⟩
    · intro c hc; exact absurd hc (by simp)
    · intro _; exact ⟨trivial, trivial⟩
  · -- M_DISCFLOW = none, M_FLOW_COL = some c0
    refine ⟨⟨?_, ?_⟩, ⟨?_, ?_⟩⟩
    · intro d hd; exact absurd hd (by simp)
    · intro _; constructor <;> (split_ifs <;> rfl)
    · intro c hc
      injection hc with hc; subst hc
      refine ⟨fun hpos => ?_, fun hneg => ?_, fun hzero => ?_⟩ <;>
        split_ifs <;> first
          | exact ⟨rfl, rfl⟩
          | (exfalso; linarith)
    · intro hc; exact absurd hc (by simp)
  · -- M_DISCFLOW = some d0, M_FLOW_COL = none
    refine ⟨⟨?_, ?_⟩, ⟨?_, ?_⟩⟩
    · intro d hd
      injection hd with hd; subst hd
      refine ⟨fun hpos => ?_, fun hneg => ?_, fun hzero => ?_⟩ <;>
        split_ifs <;> first
          | exact ⟨rfl, rfl⟩
          | (exfalso; linarith)
    · intro hd; exact absurd hd (by simp)
    · intro c hc; exact absurd hc (by simp)
    · intro _; constructor <;> (split_ifs <;> rfl)
  · -- M_DISCFLOW = some d0, M_FLOW_COL = some c0
    refine ⟨⟨?_, ?_⟩, ⟨?_, ?_⟩⟩
    · intro d hd
      injection hd with hd; subst hd
      refine ⟨fun hpos => ?_, fun hneg => ?_, fun hzero => ?_⟩ <;>
        split_ifs <;> first
          | exact ⟨rfl, rfl⟩
          | (exfalso; linarith)
    · intro hd; exact absurd hd (by simp)
    · intro c hc
      injection hc with hc; subst hc
      refine ⟨fun hpos => ?_, fun hneg => ?_, fun hzero => ?_⟩ <;>
        split_ifs <;> first
          | exact ⟨rfl, rfl⟩
          | (exfalso; linarith)
    · intro hc; exact absurd hc (by simp)

/-- C1: for an estimate row and a flow row whose (contract, date) key
equals the estimate's key, `procesar_flujos_swap` applies the three-way
sign rule independently per field: a present positive `M_DISCFLOW` sets
`der_intereses` to it, a negative one sets `obl_intereses` to its absolute
value, and zero (or NaN) leaves both interest fields unchanged; the
identical rule maps `M_FLOW_COL` to `der_vp` / `obl_vp`. -/
theorem c1_three_way_sign_rule (flows : List FlowRow) (e : EstRow) (i : Nat)
    (f : FlowRow) (hf : flows[i]? = some f) (hm : matchKey e f = true) :
    ∃ out : FlowRow,
      ((procesarFlujosSwapCount flows [e]).1)[i]? = some out ∧
      ((∀ d : ℚ, e.M_DISCFLOW = some d →
          (0 < d → out.der_intereses = some d ∧ out.obl_intereses = f.obl_intereses) ∧
          (d < 0 → out.obl_intereses = some |d| ∧ out.der_intereses = f.der_intereses) ∧
          (d = 0 → out.der_intereses = f.der_intereses ∧ out.obl_intereses = f.obl_intereses)) ∧
        (e.M_DISCFLOW = none →
          out.der_intereses = f.der_intereses ∧ out.obl_intereses = f.obl_intereses)) ∧
      ((∀ c : ℚ, e.M_FLOW_COL = some c →
          (0 < c → out.der_vp = some c ∧ out.obl_vp = f.obl_vp) ∧
          (c < 0 → out.obl_vp = some |c| ∧ out.der_vp = f.der_vp) ∧
          (c = 0 → out.der_vp = f.der_vp ∧ out.obl_vp = f.obl_vp)) ∧
        (e.M_FLOW_COL = none → out.der_vp = f.der_vp ∧ out.obl_vp = f.obl_vp)) := by
  refine ⟨aplicarEstimacion e f, ?_, aplicarEstimacion_spec e f⟩
  have hmem : f ∈ flows := by
    obtain ⟨hlt, rfl⟩ := List.getElem?_eq_some_iff.mp hf
    exact List.getElem_mem hlt
  have hpos : 0 < flows.countP (fun g => matchKey e g) :=
    List.countP_pos_iff.mpr ⟨f, hmem, hm⟩
  show ((pasoSwapCount (flows, 0) e).1)[i]? = some (aplicarEstimacion e f)
  unfold pasoSwapCount
  dsimp only
  rw [if_pos hpos, List.getElem?_map, hf]
  simp [hm]

/-- Witness for C1 at the concrete input of the spec scenario (contract
ABC123, discount 1000, collateral -1500), with nonzero original values. -/
theorem c1_witness :
    ∃ out : FlowRow,
      ((procesarFlujosSwapCount
          [⟨"ABC123", some 20250603, some 5, some 6, some 7, some 8⟩]
          [⟨"ABC123", some 20250603, some 1000, some (-1500)⟩]).1)[0]? = some out ∧
      ((∀ d : ℚ, some (1000 : ℚ) = some d →
          (0 < d → out.der_intereses = some d ∧ out.obl_intereses = some 6) ∧
          (d < 0 → out.obl_intereses = some |d| ∧ out.der_intereses = some 5) ∧
          (d = 0 → out.der_intereses = some 5 ∧ out.obl_intereses = some 6)) ∧
        (some (1000 : ℚ) = none → out.der_intereses = some 5 ∧ out.obl_intereses = some 6)) ∧
      ((∀ c : ℚ, some (-1500 : ℚ) = some c →
          (0 < c → out.der_vp = some c ∧ out.obl_vp = some 8) ∧
          (c < 0 → out.obl_vp = some |c| ∧ out.der_vp = some 7) ∧
          (c = 0 → out.der_vp = some 7 ∧ out.obl_vp = some 8)) ∧
        (some (-1500 : ℚ) = none → out.der_vp = some 7 ∧ out.obl_vp = some 8)) :=
  c1_three_way_sign_rule
    [⟨"ABC123", some 20250603, some 5, some 6, some 7, some 8⟩]
    ⟨"ABC123", some 20250603, some 1000, some (-1500)⟩ 0
    ⟨"ABC123", some 20250603, some 5, some 6, some 7, some 8⟩
    (by decide) (by decide)

/-- The running-total fold used by `procesar_informe_r5` computes the sum
of the projected values. -/
lemma foldl_add_getD (g : FlowRow → Option ℚ) (l : List FlowRow) :
    ∀ a : ℚ,
      l.foldl (fun acc f => acc + (g f).getD 0) a =
        a + (l.map (fun f => (g f).getD 0)).sum := by
  induction l with
  | nil => intro a; simp
  | cons x xs ih =>
    intro a
    rw [List.foldl_cons, ih, List.map_cons, List.sum_cons]
    ring

/-- C4: for every report row, `procesar_informe_r5` sets `cupon` to the sum
of `der_vp` (missing values as 0) over all flow rows with matching contract
code, divided by 1000000, and `cupon_1` likewise from `obl_vp`; a report
row with zero matching flow rows is returned completely unchanged. -/
theorem c4_aggregation_sums (informe : List ReportRow) (flujos : List FlowRow)
    (i : Nat) (r : ReportRow) (h : informe[i]? = some r) :
    ∃ out : ReportRow,
      (procesarInformeR5 informe flujos)[i]? = some out ∧
      (flujos.filter (fun f => f.cod_emp == r.codigo_operacion) = [] → out = r) ∧
      (flujos.filter (fun f => f.cod_emp == r.codigo_operacion) ≠ [] →
        out.codigo_operacion = r.codigo_operacion ∧
        out.cupon = some
          (((flujos.filter (fun f => f.cod_emp == r.codigo_operacion)).map
            (fun f => f.der_vp.getD 0)).sum / 1000000) ∧
        out.cupon_1 = some
          (((flujos.filter (fun f => f.cod_emp == r.codigo_operacion)).map
            (fun f => f.obl_vp.getD 0)).sum / 1000000)) := by
  have hout : (procesarInformeR5 informe flujos)[i]? = some
      (if 0 < (flujos.filter (fun f => f.cod_emp == r.codigo_operacion)).length then
        { r with
          cupon := some (((flujos.filter (fun f => f.cod_emp == r.codigo_operacion)).foldl
            (fun acc f => acc + f.der_vp.getD 0) 0) / 1000000)
          cupon_1 := some (((flujos.filter (fun f => f.cod_emp == r.codigo_operacion)).foldl
            (fun acc f => acc + f.obl_vp.getD 0) 0) / 1000000) }
      else r) := by
    unfold procesarInformeR5
    rw [List.getElem?_map, h]
    rfl
  refine ⟨_, hout, ?_, ?_⟩
  · intro hempty
    rw [hempty]
    simp
  · intro hne
    have hpos : 0 < (flujos.filter (fun f => f.cod_emp == r.codigo_operacion)).length :=
      List.length_pos.mpr hne
    rw [if_pos hpos]
    refine ⟨rfl, ?_, ?_⟩
    · rw [foldl_add_getD (fun f => f.der_vp), zero_add]
    · rw [foldl_add_getD (fun f => f.obl_vp), zero_add]

/-- Witness for C4 at a concrete input: one report row matching two flow
rows with `der_vp` 1000000 and 3000000 and `obl_vp` 500000 and 0 (NaN). -/
theorem c4_witness :
    ∃ out : ReportRow,
      (procesarInformeR5
        [⟨"ABC123", some 99, some 99⟩]
        [⟨"ABC123", some 20250603, some 0, some 0, some 1000000, some 500000⟩,
         ⟨"ABC123", some 20250604, some 0, some 0, some 3000000, none⟩])[0]? = some out ∧
      ((List.filter (fun f => f.cod_emp == "ABC123")
          [⟨"ABC123", some 20250603, some 0, some 0, some 1000000, some 500000⟩,
           ⟨"ABC123", some 20250604, some 0, some 0, some 3000000, none⟩] :
            List FlowRow) = [] → out = ⟨"ABC123", some 99, some 99⟩) ∧
      ((List.filter (fun f => f.cod_emp == "ABC123")
          [⟨"ABC123", some 20250603, some 0, some 0, some 1000000, some 500000⟩,
           ⟨"ABC123", some 20250604, some 0, some 0, some 3000000, none⟩] :
            List FlowRow) ≠ [] →
        out.codigo_operacion = "ABC123" ∧
        out.cupon = some
          (((List.filter (fun f => f.cod_emp == "ABC123")
              [⟨"ABC123", some 20250603, some 0, some 0, some 1000000, some 500000⟩,
               ⟨"ABC123", some 20250604, some 0, some 0, some 3000000, none⟩] :
                List FlowRow).map (fun f => f.der_vp.getD 0)).sum / 1000000) ∧
        out.cupon_1 = some
          (((List.filter (fun f => f.cod_emp == "ABC123")
              [⟨"ABC123", some 20250603, some 0, some 0, some 1000000, some 500000⟩,
               ⟨"ABC123", some 20250604, some 0, some 0, some 3000000, none⟩] :
                List FlowRow).map (fun f => f.obl_vp.getD 0)).sum / 1000000)) :=
  c4_aggregation_sums
    [⟨"ABC123", some 99, some 99⟩]
    [⟨"ABC123", some 20250603, some 0, some 0, some 1000000, some 500000⟩,
     ⟨"ABC123", some 20250604, some 0, some 0, some 3000000, none⟩]
    0 ⟨"ABC123", some 99, some 99⟩ (by decide)

/-! ### Helper lemmas about the normalizer -/

/-- A prefix is no longer than the list it prefixes. -/
lemma isPrefixOf_length_le :
    ∀ (a b : List Char), a.isPrefixOf b = true → a.length ≤ b.length := by
  intro a
  induction a with
  | nil => intro b _; simp
  | cons x xs ih =>
    intro b h
    cases b with
    | nil => simp [List.isPrefixOf] at h
    | cons y ys =>
      simp only [List.isPrefixOf, Bool.and_eq_true] at h
      simpa using ih ys h.2

/-- Skipping `k` characters of the scan is scanning the dropped list. -/
lemma pyReplaceAux_skip (p : Char) (pat rep : List Char) :
    ∀ (l : List Char) (k : Nat),
      pyReplaceAux p pat rep l k = pyReplaceAux p pat rep (l.drop k) 0 := by
  intro l
  induction l with
  | nil => intro k; simp [pyReplaceAux]
  | cons x rest ih =>
    intro k
    cases k with
    | zero => rfl
    | succ k0 =>
      simp only [pyReplaceAux, List.drop_succ_cons]
      exact ih k0

/-- If the pattern does not occur in the text, `pyReplace` returns the text
unchanged. -/
lemma pyReplace_no_occurrence (p : Char) (pat rep : List Char) :
    ∀ l : List Char, contiene (p :: pat) l = false → pyReplace p pat rep l = l := by
  intro l
  induction l with
  | nil => intro _; rfl
  | cons c rest ih =>
    intro h
    simp only [contiene, Bool.or_eq_false_iff] at h
    show pyReplaceAux p pat rep (c :: rest) 0 = c :: rest
    rw [pyReplaceAux, if_neg (by simp [h.1])]
    exact congrArg (c :: ·) (ih h.2)

/-- Every character of the output of the scan comes from the input text or
from the replacement string. -/
lemma mem_pyReplaceAux (p : Char) (pat rep : List Char) :
    ∀ (l : List Char) (k : Nat) (c : Char),
      c ∈ pyReplaceAux p pat rep l k → c ∈ l ∨ c ∈ rep := by
  intro l
  induction l with
  | nil => intro k c hc; simp [pyReplaceAux] at hc
  | cons x rest ih =>
    intro k c hc
    cases k with
    | succ k0 =>
      rw [pyReplaceAux] at hc
      rcases ih k0 c hc with h | h
      · exact Or.inl (List.mem_cons_of_mem _ h)
      · exact Or.inr h
    | zero =>
      rw [pyReplaceAux] at hc
      by_cases hp : (p :: pat).isPrefixOf (x :: rest) = true
      · rw [if_pos hp] at hc
        rcases List.mem_append.mp hc with h | h
        · exact Or.inr h
        · rcases ih pat.length c h with h2 | h2
          · exact Or.inl (List.mem_cons_of_mem _ h2)
          · exact Or.inr h2
      · rw [if_neg hp] at hc
        rcases List.mem_cons.mp hc with h | h
        · exact Or.inl (h ▸ List.mem_cons_self _ _)
        · rcases ih 0 c h with h2 | h2
          · exact Or.inl (List.mem_cons_of_mem _ h2)
          · exact Or.inr h2

/-- When the replacement is not longer than the pattern, replacing never
lengthens the text. -/
lemma pyReplaceAux_length_le (p : Char) (pat rep : List Char)
    (hrep : rep.length ≤ pat.length + 1) :
    ∀ (n : Nat) (l : List Char), l.length ≤ n →
      (pyReplaceAux p pat rep l 0).length ≤ l.length := by
  intro n
  induction n with
  | zero =>
    intro l hl
    have : l = [] := List.eq_nil_of_length_eq_zero (Nat.le_zero.mp hl)
    subst this
    simp [pyReplaceAux]
  | succ n ih =>
    intro l hl
    cases l with
    | nil => simp [pyReplaceAux]
    | cons x rest =>
      by_cases hp : (p :: pat).isPrefixOf (x :: rest) = true
      · rw [pyReplaceAux, if_pos hp, List.length_append, pyReplaceAux_skip]
        have hpatlen : pat.length ≤ rest.length := by
          have := isPrefixOf_length_le _ _ hp
          simpa using this
        have hrec : (pyReplaceAux p pat rep (rest.drop pat.length) 0).length ≤
            (rest.drop pat.length).length := by
          refine ih _ ?_
          have h1 : (rest.drop pat.length).length ≤ rest.length := by
            rw [List.length_drop]; omega
          have h2 : rest.length ≤ n := by
            simp only [List.length_cons] at hl; omega
          omega
        rw [List.length_drop] at hrec
        simp only [List.length_cons]
        omega
      · rw [pyReplaceAux, if_neg hp]
        have hrec : (pyReplaceAux p pat rep rest 0).length ≤ rest.length := by
          refine ih rest ?_
          simp only [List.length_cons] at hl; omega
        simp only [List.length_cons]
        omega

/-- When the replacement is strictly shorter than the pattern and the
pattern occurs in the text, replacing strictly shortens the text: the
replacement fires wherever the pattern occurs. -/
lemma pyReplace_length_lt (p : Char) (pat rep : List Char)
    (hrep : rep.length ≤ pat.length) :
    ∀ l : List Char, contiene (p :: pat) l = true →
      (pyReplace p pat rep l).length < l.length := by
  intro l
  induction l with
  | nil => intro h; simp [contiene, List.isEmpty] at h
  | cons x rest ih =>
    intro h
    by_cases hp : (p :: pat).isPrefixOf (x :: rest) = true
    · show (pyReplaceAux p pat rep (x :: rest) 0).length < (x :: rest).length
      rw [pyReplaceAux, if_pos hp, List.length_append, pyReplaceAux_skip]
      have hpatlen : pat.length ≤ rest.length := by
        have := isPrefixOf_length_le _ _ hp
        simpa using this
      have hrec : (pyReplaceAux p pat rep (rest.drop pat.length) 0).length ≤
          (rest.drop pat.length).length :=
        pyReplaceAux_length_le p pat rep (by omega) _ _ (le_refl _)
      rw [List.length_drop] at hrec
      simp only [List.length_cons]
      omega
    · have h2 : contiene (p :: pat) rest = true := by
        simp only [contiene, hp, Bool.false_or] at h
        exact h
      have hrec := ih h2
      show (pyReplaceAux p pat rep (x :: rest) 0).length < (x :: rest).length
      rw [pyReplaceAux, if_neg hp]
      simp only [List.length_cons]
      exact Nat.succ_lt_succ hrec

/-- A character outside the source column of the translation table is left
unchanged by `traducir`. -/
lemma traducir_fix_of_not_mem {c : Char} (h : c ∉ tablaOrigen) :
    traducir c = c := by
  unfold traducir
  rcases hf : tablaZip.find? (fun p => p.1 == c) with _ | q
  · rw [hf]
  · exfalso
    have hq := List.find?_some hf
    have hmem := List.mem_of_find?_eq_some hf
    have h1 : q.1 = c := by simpa using hq
    have h2 : ∀ r ∈ tablaZip, r.1 ∈ tablaOrigen := by decide
    exact h (h1 ▸ h2 q hmem)

/-- `traducir` is idempotent on every character. -/
lemma traducir_idem (c : Char) : traducir (traducir c) = traducir c := by
  have h : traducir c = c ∨ traducir c ∈ tablaDestino := by
    unfold traducir
    rcases hf : tablaZip.find? (fun p => p.1 == c) with _ | q
    · left
      rw [hf]
    · right
      rw [hf]
      have hmem := List.mem_of_find?_eq_some hf
      have h2 : ∀ r ∈ tablaZip, r.2 ∈ tablaDestino := by decide
      exact h2 q hmem
  rcases h with h | h
  · rw [h]
    exact h
  · have hfix : ∀ a ∈ tablaDestino, traducir a = a := by decide
    exact hfix _ h

/-- Mapping a function that fixes every element of a list is the identity. -/
lemma map_fix {g : Char → Char} :
    ∀ l : List Char, (∀ c ∈ l, g c = c) → l.map g = l := by
  intro l h
  induction l with
  | nil => rfl
  | cons c rest ih =>
    rw [List.map_cons, h c (List.mem_cons_self _ _),
      ih (fun x hx => h x (List.mem_cons_of_mem _ hx))]

/-- Every character of a normalized text is fixed by the translation:
translation outputs are fixed, and the replacement strings contain no
translatable character. -/
lemma traducir_fix_of_mem_limpiar (s : List Char) :
    ∀ c ∈ limpiar_texto s, traducir c = c := by
  intro c hc
  unfold limpiar_texto pyReplace at hc
  rcases mem_pyReplaceAux _ _ _ _ _ _ hc with h1 | h1
  · rcases mem_pyReplaceAux _ _ _ _ _ _ h1 with h2 | h2
    · rcases List.mem_map.mp h2 with ⟨a, _, rfl⟩
      exact traducir_idem a
    · have hfix : ∀ c ∈ ";33;".toList, traducir c = c := by decide
      exact hfix c h2
  · have hfix : ∀ c ∈ ";11001;".toList, traducir c = c := by decide
    exact hfix c h1

/-- Counterexample to C5: the normalizer is not idempotent.  On the input
`";033;033;"` one pass yields `";33;033;"` (Python `str.replace` scans
left to right without overlapping, so the second, overlapping occurrence
survives), and a second pass rewrites it again to `";33;33;"`. -/
theorem c5_counterexample :
    limpiar_texto (limpiar_texto ";033;033;".toList) ≠
      limpiar_texto ";033;033;".toList := by decide

/-- C5 (amended): the character-substitution stage is idempotent on every
input, and the full normalizer is idempotent on every input whose one-pass
output contains no occurrence of `";033;"` and none of `";011001;"`; it is
not idempotent in general (see the counterexample). -/
theorem c5_conditional_idempotence :
    (∀ s : List Char, (s.map traducir).map traducir = s.map traducir) ∧
    (∀ s : List Char,
      contiene ";033;".toList (limpiar_texto s) = false →
      contiene ";011001;".toList (limpiar_texto s) = false →
      limpiar_texto (limpiar_texto s) = limpiar_texto s) := by
  constructor
  · intro s
    apply map_fix
    intro c hc
    rcases List.mem_map.mp hc with ⟨a, _, rfl⟩
    exact traducir_idem a
  · intro s h1 h2
    have e1 : (";033;".toList : List Char) = ';' :: "033;".toList := by decide
    have e2 : (";011001;".toList : List Char) = ';' :: "011001;".toList := by decide
    rw [e1] at h1
    rw [e2] at h2
    have hmap : (limpiar_texto s).map traducir = limpiar_texto s :=
      map_fix _ (traducir_fix_of_mem_limpiar s)
    show pyReplace ';' "011001;".toList ";11001;".toList
        (pyReplace ';' "033;".toList ";33;".toList ((limpiar_texto s).map traducir)) =
      limpiar_texto s
    rw [hmap, pyReplace_no_occurrence _ _ _ _ h1, pyReplace_no_occurrence _ _ _ _ h2]

/-- Witness for C5 (amended) at a concrete input whose one-pass output is
pattern-free. -/
theorem c5_witness :
    limpiar_texto (limpiar_texto "José Peña;033;X".toList) =
      limpiar_texto "José Peña;033;X".toList :=
  c5_conditional_idempotence.2 "José Peña;033;X".toList (by decide) (by decide)

/-- C6: the character substitution replaces exactly the twelve characters
of the fixed table (accented vowels and ñ/Ñ) by their unaccented forms and
leaves every character outside the table — including ü and ç — unchanged. -/
theorem c6_substitution_table_exact :
    (∀ c : Char, c ∉ tablaOrigen → traducir c = c) ∧
    (traducir 'á' = 'a' ∧ traducir 'é' = 'e' ∧ traducir 'í' = 'i' ∧
      traducir 'ó' = 'o' ∧ traducir 'ú' = 'u' ∧ traducir 'Á' = 'A' ∧
      traducir 'É' = 'E' ∧ traducir 'Í' = 'I' ∧ traducir 'Ó' = 'O' ∧
      traducir 'Ú' = 'U' ∧ traducir 'ñ' = 'n' ∧ traducir 'Ñ' = 'N') ∧
    (traducir 'ü' = 'ü' ∧ traducir 'ç' = 'ç') := by
  refine ⟨fun c h => traducir_fix_of_not_mem h, by decide, by decide⟩

/-- Witness for C6 at a concrete character outside the table. -/
theorem c6_witness : traducir 'x' = 'x' :=
  c6_substitution_table_exact.1 'x' (by decide)

/-- C7: after character substitution the normalizer applies the literal
replacements `";033;"` → `";33;"` and `";011001;"` → `";11001;"`: the two
scenario inputs of the spec are rewritten as stated, the replacements also
fire in the middle of a longer text, and whenever a pattern occurs anywhere
in a text the corresponding replacement strictly shortens it (so it is
never skipped). -/
theorem c7_literal_replacements :
    limpiar_texto ";033;001".toList = ";33;001".toList ∧
    limpiar_texto "José Peña;011001;X".toList = "Jose Pena;11001;X".toList ∧
    limpiar_texto "AB;033;CD;011001;EF".toList = "AB;33;CD;11001;EF".toList ∧
    (∀ s : List Char, contiene ";033;".toList s = true →
      (pyReplace ';' "033;".toList ";33;".toList s).length < s.length) ∧
    (∀ s : List Char, contiene ";011001;".toList s = true →
      (pyReplace ';' "011001;".toList ";11001;".toList s).length < s.length) := by
  refine ⟨by decide, by decide, by decide, ?_, ?_⟩
  · intro s hs
    have e1 : (";033;".toList : List Char) = ';' :: "033;".toList := by decide
    rw [e1] at hs
    exact pyReplace_length_lt ';' "033;".toList ";33;".toList (by decide) s hs
  · intro s hs
    have e2 : (";011001;".toList : List Char) = ';' :: "011001;".toList := by decide
    rw [e2] at hs
    exact pyReplace_length_lt ';' "011001;".toList ";11001;".toList (by decide) s hs

/-- Witness for C7 at a concrete input containing the pattern mid-text. -/
theorem c7_witness :
    (pyReplace ';' "033;".toList ";33;".toList "a;033;b".toList).length <
      "a;033;b".toList.length :=
  c7_literal_replacements.2.2.2.1 "a;033;b".toList (by decide)

/-! ### Helper lemmas about warning counting and skipping -/

/-- The flows component produced by one loop step of `procesar` does not
depend on the warning counter. -/
lemma paso2sLog_fst (fs : List FlowRow) (w : Nat) (e : EstRow) :
    (paso2sLog (fs, w) e).1 = (paso2sLog (fs, 0) e).1 := by
  unfold paso2sLog
  dsimp only
  by_cases h : fs.any (fun f => matchKey e f) = true
  · simp only [h, if_true]
    cases e.M_DISCFLOW <;> cases e.M_FLOW_COL <;> rfl
  · simp only [h, Bool.false_eq_true, if_false]

/-- The flows component of the whole loop does not depend on the warning
counter. -/
lemma foldl2s_fst_indep (ests : List EstRow) :
    ∀ (fs : List FlowRow) (w : Nat),
      ((ests.foldl paso2sLog (fs, w)).1) = ((ests.foldl paso2sLog (fs, 0)).1) := by
  induction ests with
  | nil => intro fs w; rfl
  | cons e ests ih =>
    intro fs w
    rw [List.foldl_cons, List.foldl_cons]
    calc (List.foldl paso2sLog (paso2sLog (fs, w) e) ests).1
        = (List.foldl paso2sLog ((paso2sLog (fs, w) e).1, 0) ests).1 :=
          ih (paso2sLog (fs, w) e).1 (paso2sLog (fs, w) e).2
      _ = (List.foldl paso2sLog ((paso2sLog (fs, 0) e).1, 0) ests).1 := by
          rw [paso2sLog_fst]
      _ = (List.foldl paso2sLog (paso2sLog (fs, 0) e) ests).1 :=
          (ih (paso2sLog (fs, 0) e).1 (paso2sLog (fs, 0) e).2).symm

/-- C8: an estimate row carrying a non-numeric flow value (a value on
which `float(...)` raises, modelled as `none`) is skipped by `procesar`:
the resulting flows table is the one obtained by processing the remaining
rows as if the bad row were absent — the bad row never aborts the run and
every other row is still processed. -/
theorem c8_nonnumeric_row_skipped (flows : List FlowRow) (es1 es2 : List EstRow)
    (e : EstRow) (hbad : e.M_DISCFLOW = none ∨ e.M_FLOW_COL = none) :
    (procesar2sLog flows (es1 ++ e :: es2)).1 =
      (procesar2sLog flows (es1 ++ es2)).1 := by
  unfold procesar2sLog
  rw [List.foldl_append, List.foldl_append, List.foldl_cons]
  set st := List.foldl paso2sLog (flows.map fillnaFlow, 0) es1 with hst
  have h1 : (paso2sLog st e).1 = st.1 := by
    unfold paso2sLog
    by_cases hA : st.1.any (fun f => matchKey e f) = true
    · simp only [hA, if_true]
      rcases hbad with h | h
      · rw [h]
      · rw [h]
        cases e.M_DISCFLOW <;> rfl
    · simp only [hA, Bool.false_eq_true, if_false]
  calc (List.foldl paso2sLog (paso2sLog st e) es2).1
      = (List.foldl paso2sLog ((paso2sLog st e).1, 0) es2).1 :=
        foldl2s_fst_indep es2 (paso2sLog st e).1 (paso2sLog st e).2
    _ = (List.foldl paso2sLog (st.1, 0) es2).1 := by rw [h1]
    _ = (List.foldl paso2sLog st es2).1 :=
        (foldl2s_fst_indep es2 st.1 st.2).symm

/-- Witness for C8: a bad middle row between two good rows is skipped. -/
theorem c8_witness :
    (procesar2sLog
      [⟨"ABC123", some 20250603, some 0, some 0, some 0, some 0⟩]
      ([⟨"ABC123", some 20250603, some 10, some 20⟩] ++
        ⟨"ABC123", some 20250603, none, some 30⟩ ::
        [⟨"ABC123", some 20250603, some (-40), some 50⟩])).1 =
    (procesar2sLog
      [⟨"ABC123", some 20250603, some 0, some 0, some 0, some 0⟩]
      ([⟨"ABC123", some 20250603, some 10, some 20⟩] ++
        [⟨"ABC123", some 20250603, some (-40), some 50⟩])).1 :=
  c8_nonnumeric_row_skipped
    [⟨"ABC123", some 20250603, some 0, some 0, some 0, some 0⟩]
    [⟨"ABC123", some 20250603, some 10, some 20⟩]
    [⟨"ABC123", some 20250603, some (-40), some 50⟩]
    ⟨"ABC123", some 20250603, none, some 30⟩
    (Or.inl rfl)

/-- Counterexample to C9: an estimate row matching zero flow rows is
silently skipped.  With one flow row and one non-matching estimate row
(different date), both reconciliation variants return exactly the state
they return when the row is absent: no warning is logged (the warning
counter stays 0) and the modification counter is unchanged, so nothing
surfaces the zero-match row. -/
theorem c9_counterexample :
    procesar2sLog
        [⟨"ABC123", some 20250603, some 0, some 0, some 0, some 0⟩]
        [⟨"ABC123", some 20250604, some 1000, some (-1500)⟩] =
      procesar2sLog
        [⟨"ABC123", some 20250603, some 0, some 0, some 0, some 0⟩] [] ∧
    (procesar2sLog
        [⟨"ABC123", some 20250603, some 0, some 0, some 0, some 0⟩]
        [⟨"ABC123", some 20250604, some 1000, some (-1500)⟩]).2 = 0 ∧
    procesarFlujosSwapCount
        [⟨"ABC123", some 20250603, some 0, some 0, some 0, some 0⟩]
        [⟨"ABC123", some 20250604, some 1000, some (-1500)⟩] =
      procesarFlujosSwapCount
        [⟨"ABC123", some 20250603, some 0, some 0, some 0, some 0⟩] [] := by
  decide

/-- C9 (amended): an estimate row whose key matches no flow row is silently
skipped by both reconciliation variants: no warning is emitted and no
counter moves — the run's entire observable output (flows, modification
counter, warning counter) is identical to the run without that row. -/
theorem c9_zero_match_silent (flows : List FlowRow) (ests : List EstRow)
    (e : EstRow) (h : ∀ f ∈ flows, matchKey e f = false) :
    procesarFlujosSwapCount flows (e :: ests) = procesarFlujosSwapCount flows ests ∧
    procesar2sLog flows (e :: ests) = procesar2sLog flows ests := by
  constructor
  · unfold procesarFlujosSwapCount
    rw [List.foldl_cons]
    have hzero : flows.countP (fun f => matchKey e f) = 0 :=
      List.countP_eq_zero.mpr (by simpa using h)
    have : pasoSwapCount (flows, 0) e = (flows, 0) := by
      unfold pasoSwapCount
      dsimp only
      rw [if_neg (by omega)]
    rw [this]
  · unfold procesar2sLog
    rw [List.foldl_cons]
    have hany : (flows.map fillnaFlow).any (fun f => matchKey e f) = false := by
      rw [List.any_eq_false]
      intro f hf
      rcases List.mem_map.mp hf with ⟨a, ha, rfl⟩
      rw [matchKey_fillnaFlow]
      simpa using h a ha
    have : paso2sLog (flows.map fillnaFlow, 0) e = (flows.map fillnaFlow, 0) := by
      unfold paso2sLog
      simp only [hany, Bool.false_eq_true, if_false]
    rw [this]

/-- Witness for C9 (amended) at a concrete input with a date mismatch. -/
theorem c9_witness :
    procesarFlujosSwapCount
        [⟨"ABC123", some 20250603, some 0, some 0, some 0, some 0⟩]
        (⟨"ABC123", some 20250604, some 1000, some (-1500)⟩ :: []) =
      procesarFlujosSwapCount
        [⟨"ABC123", some 20250603, some 0, some 0, some 0, some 0⟩] [] ∧
    procesar2sLog
        [⟨"ABC123", some 20250603, some 0, some 0, some 0, some 0⟩]
        (⟨"ABC123", some 20250604, some 1000, some (-1500)⟩ :: []) =
      procesar2sLog
        [⟨"ABC123", some 20250603, some 0, some 0, some 0, some 0⟩] [] :=
  c9_zero_match_silent
    [⟨"ABC123", some 20250603, some 0, some 0, some 0, some 0⟩] []
    ⟨"ABC123", some 20250604, some 1000, some (-1500)⟩ (by decide)

/-- Counterexample to C10: the estimates collection is not read-only.
After `procesar_flujos_swap` returns, the caller's estimates table has its
`M_DATE` field converted in place from the raw string `"03/06/2025"` to a
datetime value, so it differs from its value when the operation was
invoked. -/
theorem c10_counterexample :
    (procesarFlujosSwapEstado []
        [⟨"ABC123", Cell.str "03/06/2025", some 1000, some (-1500)⟩]).2 ≠
      [⟨"ABC123", Cell.str "03/06/2025", some 1000, some (-1500)⟩] := by decide

/-- C10 (amended): during reconciliation the estimates table is mutated in
exactly one way: every row keeps its contract code and flow values and its
row position, but its `M_DATE` field is overwritten in place with the
parsed datetime (NaT for an unparseable string); the collection keeps its
length. -/
theorem c10_estimates_date_mutated (flows : List FlowRow) (ests : List EstRowRaw)
    (i : Nat) (r : EstRowRaw) (h : ests[i]? = some r) :
    ((procesarFlujosSwapEstado flows ests).2).length = ests.length ∧
    ((procesarFlujosSwapEstado flows ests).2)[i]? =
      some { r with M_DATE := Cell.dt (cellToDate r.M_DATE) } := by
  constructor
  · show (ests.map convertirMDate).length = ests.length
    exact List.length_map ests convertirMDate
  · show (ests.map convertirMDate)[i]? = _
    rw [List.getElem?_map, h]
    rfl

/-- Witness for C10 (amended) at a concrete input. -/
theorem c10_witness :
    ((procesarFlujosSwapEstado []
        [⟨"ABC123", Cell.str "03/06/2025", some 1000, some (-1500)⟩]).2).length = 1 ∧
    ((procesarFlujosSwapEstado []
        [⟨"ABC123", Cell.str "03/06/2025", some 1000, some (-1500)⟩]).2)[0]? =
      some ⟨"ABC123",
        Cell.dt (cellToDate (Cell.str "03/06/2025")), some 1000, some (-1500)⟩ :=
  c10_estimates_date_mutated []
    [⟨"ABC123", Cell.str "03/06/2025", some 1000, some (-1500)⟩] 0
    ⟨"ABC123", Cell.str "03/06/2025", some 1000, some (-1500)⟩ (by decide)
